import Mathlib

/- Verification of the neuro_estimator_nodejs instruction protocol and
   streaming pipeline.

   The definitions below are a shallow embedding of the JavaScript source:
   * src/services/projectService.js : parseInstructionAttributes, processValue,
     applyLineItemChanges (add / update / delete steps);
   * src/services/connectionManager.js : the ConnectionManager registry;
   * the HTTP streaming middleware (httpStreamingMiddleware);
   * the /api/stream/connect handler;
   * src/services/geminiService.js : processGeminiResponse.

   JavaScript strings are modeled by their character lists, JS numbers by
   exact rationals (with an explicit NaN marker), JS objects used as
   attribute maps by insertion-ordered association lists. -/

/-- The single-quote character, written numerically. -/
def squoteC : Char := Char.ofNat 39

/-- The double-quote character, written numerically. -/
def dquoteC : Char := Char.ofNat 34

/-- JS whitespace as used by String.trim and the regex class \s
    (space, tab, LF, CR, VT, FF; exotic unicode spaces are not modeled). -/
def isWsChar (c : Char) : Bool :=
  c == ' ' || c == '\t' || c == '\n' || c == '\r' ||
    c == Char.ofNat 11 || c == Char.ofNat 12

/-- Model of JS String.prototype.trim: drop leading and trailing whitespace. -/
def trimChars (l : List Char) : List Char :=
  ((l.dropWhile isWsChar).reverse.dropWhile isWsChar).reverse

/-- Decimal value of a digit string: what parseInt(ds, 10) returns on the
    (\d+) capture groups of the instruction regexes. -/
def digitsVal (ds : List Char) : Nat :=
  ds.foldl (fun n c => n * 10 + (c.toNat - 48)) 0

/-- Value of the fractional digit part fp in a decimal literal. -/
def fracVal (fp : List Char) : ℚ :=
  (digitsVal fp : ℚ) / (10 : ℚ) ^ fp.length

/-- Apply a decimal exponent part: q * 10^e or q / 10^e. -/
def expApply (q : ℚ) (sgnPos : Bool) (e : Nat) : ℚ :=
  if sgnPos then q * (10 : ℚ) ^ e else q / (10 : ℚ) ^ e

/-- Mantissa of a JS decimal literal: digits, digits.digits, or .digits,
    returning its value and the unconsumed remainder. -/
def parseMantissa (l : List Char) : Option (ℚ × List Char) :=
  let ip := l.takeWhile Char.isDigit
  let r1 := l.dropWhile Char.isDigit
  match r1 with
  | '.' :: r2 =>
    let fp := r2.takeWhile Char.isDigit
    let r3 := r2.dropWhile Char.isDigit
    if ip = [] && fp = [] then none
    else some ((digitsVal ip : ℚ) + fracVal fp, r3)
  | _ => if ip = [] then none else some ((digitsVal ip : ℚ), r1)

/-- Optional exponent suffix of a JS decimal literal; the whole remainder
    must be consumed. -/
def parseExpPart (q : ℚ) : List Char → Option ℚ
  | [] => some q
  | c :: r =>
    if c == 'e' || c == 'E' then
      let (sgnPos, r2) : Bool × List Char :=
        match r with
        | '+' :: x => (true, x)
        | '-' :: x => (false, x)
        | x => (true, x)
      let ed := r2.takeWhile Char.isDigit
      let r3 := r2.dropWhile Char.isDigit
      if ed = [] || r3 ≠ [] then none
      else some (expApply q sgnPos (digitsVal ed))
    else none

/-- Model of JS Number(string): trims, an empty or all-whitespace string is 0,
    otherwise an optionally signed decimal literal with optional fraction and
    exponent; none models NaN.  (Hex and Infinity literal forms are not
    modeled; no instruction attribute in this code base uses them.) -/
def jsNumber? (l : List Char) : Option ℚ :=
  let t := trimChars l
  if t = [] then some 0
  else
    let (neg, body) : Bool × List Char :=
      match t with
      | '+' :: x => (false, x)
      | '-' :: x => (true, x)
      | x => (false, x)
    match parseMantissa body with
    | none => none
    | some (q, r) =>
      match parseExpPart q r with
      | none => none
      | some q2 => some (if neg then -q2 else q2)

/-- A JS value as produced by the parser and stored on line items:
    string, number (exact rational), boolean, NaN, or undefined. -/
inductive Value where
  | str (s : String)
  | num (q : ℚ)
  | bool (b : Bool)
  | nan
  | undefined
deriving DecidableEq, Repr

/-- JS truthiness of a Value. -/
def Value.truthy : Value → Bool
  | .str s => s != ""
  | .num q => q != 0
  | .bool b => b
  | .nan => false
  | .undefined => false

/-- JS numeric coercion of a Value (as done by the * operator);
    none models NaN. -/
def Value.toNumber : Value → Option ℚ
  | .num q => some q
  | .bool true => some 1
  | .bool false => some 0
  | .str s => jsNumber? s.data
  | .nan => none
  | .undefined => none

/-- JS multiplication a * b with numeric coercion; non-coercible operands
    yield NaN. -/
def jsMul (a b : Value) : Value :=
  match a.toNumber, b.toNumber with
  | some x, some y => .num (x * y)
  | _, _ => .nan

/-- JS a || b. -/
def jsOr (a b : Value) : Value := if a.truthy then a else b

/-- Lookup in an insertion-ordered association list (JS object / Map read). -/
def lookupKey {α : Type} : List (String × α) → String → Option α
  | [], _ => none
  | (k2, v) :: rest, k => if k2 = k then some v else lookupKey rest k

/-- JS object property write / Map.set: replace in place or append. -/
def setKey {α : Type} : List (String × α) → String → α → List (String × α)
  | [], k, v => [(k, v)]
  | (k2, v2) :: rest, k, v =>
    if k2 = k then (k, v) :: rest else (k2, v2) :: setKey rest k v

/-- JS Map.delete: drop the entry for a key.  (A Map holds at most one entry
    per key, so dropping every matching entry coincides with Map.delete on
    every state a Map can be in.) -/
def delKey {α : Type} (l : List (String × α)) (k : String) : List (String × α) :=
  l.filter fun kv => kv.1 ≠ k

/-- attributes[k]: undefined when the key is missing. -/
def jsGet (attrs : List (String × Value)) (k : String) : Value :=
  (lookupKey attrs k).getD .undefined

/-- JS String.toLowerCase, per character. -/
def toLowerChars (l : List Char) : List Char := l.map Char.toLower

/-- The quoted-string test of processValue: value starts and ends with a
    single quote, or starts and ends with a double quote.  A one-character
    quote passes (its first and last character coincide), as in the source. -/
def isQuotedSpan (v : List Char) : Bool :=
  match v.head?, v.getLast? with
  | some a, some b => (a == squoteC && b == squoteC) || (a == dquoteC && b == dquoteC)
  | _, _ => false

/-- value.substring(1, value.length - 1): JS substring swaps its bounds when
    start exceeds end, so a one-character value is returned whole. -/
def stripQuotes (v : List Char) : List Char :=
  if 2 ≤ v.length then (v.drop 1).dropLast else v

/-- Tail of processValue: the "true"/"false" checks and the string default. -/
def processBoolOrStr (value : List Char) : Value :=
  if toLowerChars value = "true".data then .bool true
  else if toLowerChars value = "false".data then .bool false
  else .str (String.mk value)

/-- processValue from src/services/projectService.js: quoted values are
    returned with the quotes stripped; the categorical keys cost_type,
    unit_type, status stay strings; otherwise numeric strings become numbers
    (the !isNaN(value) && value.trim() !== "" test) and "true"/"false"
    become booleans. -/
def processValueC (value key : List Char) : Value :=
  if isQuotedSpan value then .str (String.mk (stripQuotes value))
  else if key = "cost_type".data ∨ key = "unit_type".data ∨ key = "status".data then
    .str (String.mk value)
  else
    match jsNumber? value with
    | some q => if trimChars value ≠ [] then .num q else processBoolOrStr value
    | none => processBoolOrStr value

/-- String-level wrapper for processValue. -/
def processValue (value key : String) : Value := processValueC value.data key.data

/-- Scanner state of parseInstructionAttributes: accumulated attributes,
    current key and value, quote state, and whether a key is being read. -/
structure AttrSt where
  attrs : List (String × Value)
  curKey : List Char
  curVal : List Char
  inQuote : Bool
  quoteChar : Char
  parsingKey : Bool
deriving Repr

/-- attributes[currentKey] = processValue(currentValue.trim(), currentKey). -/
def commitPair (st : AttrSt) : List (String × Value) :=
  setKey st.attrs (String.mk st.curKey) (processValueC (trimChars st.curVal) st.curKey)

/-- One character of the parseInstructionAttributes scan loop. -/
def stepChar (st : AttrSt) (c : Char) : AttrSt :=
  if st.parsingKey then
    if c == '=' then { st with parsingKey := false, curKey := trimChars st.curKey }
    else { st with curKey := st.curKey ++ [c] }
  else
    if !st.inQuote && (c == squoteC || c == dquoteC) then
      { st with inQuote := true, quoteChar := c }
    else if st.inQuote && c == st.quoteChar then { st with inQuote := false }
    else if !st.inQuote && c == ',' then
      { st with attrs := commitPair st, curKey := [], curVal := [], parsingKey := true }
    else { st with curVal := st.curVal ++ [c] }

/-- The scan loop of parseInstructionAttributes, with its trailing
    if (currentKey) commit. -/
def parseLoop : List Char → AttrSt → List (String × Value)
  | [], st => if st.curKey ≠ [] then commitPair st else st.attrs
  | c :: rest, st => parseLoop rest (stepChar st c)

/-- Initial scanner state (the quote character placeholder is never read
    while inQuote is false). -/
def initAttrSt : AttrSt := ⟨[], [], [], false, ' ', true⟩

/-- parseInstructionAttributes from src/services/projectService.js: an
    optional leading ID:(\d+),?\s* is consumed into an integer id attribute,
    then the remainder is scanned into key = value pairs. -/
def parseAttrsC (s : List Char) : List (String × Value) :=
  if ['I', 'D', ':'].isPrefixOf s then
    let afterID := s.drop 3
    let ds := afterID.takeWhile Char.isDigit
    if ds = [] then parseLoop s initAttrSt
    else
      let rest0 := afterID.drop ds.length
      let rest1 : List Char :=
        match rest0 with
        | ',' :: r => r
        | r => r
      parseLoop (rest1.dropWhile isWsChar)
        { initAttrSt with attrs := [("id", Value.num (digitsVal ds))] }
  else parseLoop s initAttrSt

/-- String-level wrapper for parseInstructionAttributes. -/
def parseInstructionAttributes (s : String) : List (String × Value) :=
  parseAttrsC s.data

/- ------------------------------------------------------------------ -/
/- Line-Item Mutation Engine: applyLineItemChanges                     -/
/- (src/services/projectService.js, lines 308-544).                    -/
/-                                                                     -/
/- The persistence layer (supabase / PostgREST over estimate_items) is -/
/- modeled as a list of rows plus a fresh-id counter.  Following the   -/
/- supabase-js client semantics visible to this code: an update or     -/
/- delete that matches zero rows still succeeds with a null error, an  -/
/- insert always yields the inserted row with a fresh id.  Database-   -/
/- side constraint failures are not modeled (none of the verified      -/
/- properties depends on them).                                        -/
/- ------------------------------------------------------------------ -/

/-- The item's open data column: either an explicit value from a data
    attribute, or the default ai_generated object (whose embedded wall-clock
    timestamp is abstracted away). -/
inductive DataVal where
  | json (v : Value)
  | aiGenerated
deriving DecidableEq, Repr

/-- One estimate_items row, with the columns this code reads and writes;
    update keys outside the modeled columns are carried in extra. -/
structure Item where
  id : Nat
  projectId : Nat
  title : Value
  description : Value
  quantity : Value
  unitPrice : Value
  unitType : Value
  costType : Value
  amount : Value
  currency : Value
  createdBy : Value
  isSubItem : Value
  status : Value
  parentItemId : Option Value
  dataField : DataVal
  extra : List (String × Value)
deriving DecidableEq, Repr

/-- The estimate_items table: rows in insertion order plus the next
    identity value. -/
structure DB where
  items : List Item
  nextId : Nat
deriving DecidableEq, Repr

/-- The summary object returned by applyLineItemChanges. -/
structure Summary where
  itemsAdded : Nat
  itemsUpdated : Nat
  itemsDeleted : Nat
  errors : List String
deriving DecidableEq, Repr

/-- Append one message to summary.errors. -/
def pushErr (s : Summary) (m : String) : Summary :=
  { s with errors := s.errors ++ [m] }

/-- The only JS exception this engine can raise: calling toLowerCase on a
    non-string description value. -/
inductive JsError where
  | typeError
deriving DecidableEq, Repr

/-- description.toLowerCase(): defined on strings only; any other value
    raises a TypeError. -/
def Value.toLowerString? : Value → Option (List Char)
  | .str s => some (toLowerChars s.data)
  | _ => none

/-- JS String.includes, via first-occurrence search. -/
def splitOnSub : List Char → List Char → Option (List Char × List Char)
  | [], pat => if pat.isPrefixOf ([] : List Char) then some ([], []) else none
  | c :: rest, pat =>
    if pat.isPrefixOf (c :: rest) then some ([], (c :: rest).drop pat.length)
    else
      match splitOnSub rest pat with
      | some (b, a) => some (c :: b, a)
      | none => none

/-- Whether pat occurs as a substring of l. -/
def containsSub (l pat : List Char) : Bool := (splitOnSub l pat).isSome

/-- The keyword chain that classifies a lowercased description into a cost
    type, identical in the add and update paths of applyLineItemChanges. -/
def inferCostTypeKeywords (low : List Char) : String :=
  if containsSub low "admin".data then "admin"
  else if containsSub low "equipment".data || containsSub low "tool".data ||
      containsSub low "machine".data || containsSub low "device".data then "equipment"
  else if containsSub low "labor".data || containsSub low "work".data ||
      containsSub low "service".data || containsSub low "hour".data ||
      containsSub low "installation".data then "labor"
  else if containsSub low "material".data || containsSub low "supply".data ||
      containsSub low "part".data || containsSub low "component".data then "material"
  else if containsSub low "overhead".data || containsSub low "indirect".data ||
      containsSub low "administrative".data then "overhead"
  else "other"

/-- Rendering of a Value inside a template literal, for error messages.
    (JS float formatting is approximated; no verified property inspects
    these strings.) -/
def Value.jsToString : Value → String
  | .str s => s
  | .num q => if q.den = 1 then toString q.num else toString q.num ++ "/" ++ toString q.den
  | .bool b => if b then "true" else "false"
  | .nan => "NaN"
  | .undefined => "undefined"

/-- In the update path: if quantity and unit_price are truthy and amount is
    not, set attributes.amount = attributes.quantity * attributes.unit_price. -/
def deriveAmount (attrs : List (String × Value)) : List (String × Value) :=
  if (jsGet attrs "quantity").truthy && (jsGet attrs "unit_price").truthy &&
      !(jsGet attrs "amount").truthy then
    setKey attrs "amount" (jsMul (jsGet attrs "quantity") (jsGet attrs "unit_price"))
  else attrs

/-- The Object.entries loop that copies attributes into updateData, renaming
    parent_id to parent_item_id and passing every other key through. -/
def renameKey (k : String) : String := if k = "parent_id" then "parent_item_id" else k

/-- updateData built from the (amount-derived) attribute map. -/
def buildUpdateData (attrs : List (String × Value)) : List (String × Value) :=
  attrs.foldl (fun ud kv => setKey ud (renameKey kv.1) kv.2) []

/-- The update path's cost-type inference: when description is truthy and
    cost_type is not, classify the lowercased description; a non-string
    description raises a TypeError. -/
def costTypeForUpdate (attrs : List (String × Value)) : Except JsError (Option String) :=
  if (jsGet attrs "description").truthy && !(jsGet attrs "cost_type").truthy then
    match (jsGet attrs "description").toLowerString? with
    | none => .error .typeError
    | some low => .ok (some (inferCostTypeKeywords low))
  else .ok none

/-- Apply one updateData entry to a row: named columns are replaced, any
    other key is carried in extra. -/
def applyUpdateEntry (it : Item) (k : String) (v : Value) : Item :=
  if k = "description" then { it with description := v }
  else if k = "title" then { it with title := v }
  else if k = "quantity" then { it with quantity := v }
  else if k = "unit_price" then { it with unitPrice := v }
  else if k = "amount" then { it with amount := v }
  else if k = "currency" then { it with currency := v }
  else if k = "unit_type" then { it with unitType := v }
  else if k = "cost_type" then { it with costType := v }
  else if k = "is_sub_item" then { it with isSubItem := v }
  else if k = "status" then { it with status := v }
  else if k = "created_by" then { it with createdBy := v }
  else if k = "parent_item_id" then { it with parentItemId := some v }
  else if k = "data" then { it with dataField := .json v }
  else { it with extra := setKey it.extra k v }

/-- PostgREST update: only the columns present in updateData are written. -/
def applyUpdateData (it : Item) (ud : List (String × Value)) : Item :=
  ud.foldl (fun it kv => applyUpdateEntry it kv.1 kv.2) it

/-- t.substring(t.indexOf(",") + 1): everything after the first comma, or the
    whole string when there is none (indexOf yields -1). -/
def afterFirstComma (t : List Char) : List Char :=
  if ',' ∈ t then (t.dropWhile (fun c => c ≠ ',')).drop 1 else t

/-- The complete updateData of an update instruction whose attribute part
    (after "+ ID:<n>,") parses to attrs: derive amount, copy and rename,
    infer cost_type from a changed description, default title from
    description. -/
def mkUpdateData (attrs : List (String × Value)) :
    Except JsError (List (String × Value)) :=
  let attrs1 := deriveAmount attrs
  let ud1 := buildUpdateData attrs1
  match costTypeForUpdate attrs1 with
  | .error e => .error e
  | .ok oct =>
    let ud2 := match oct with
      | some ct => setKey ud1 "cost_type" (.str ct)
      | none => ud1
    let ud3 :=
      if (jsGet ud2 "description").truthy && !(jsGet ud2 "title").truthy then
        setKey ud2 "title" (jsGet ud2 "description")
      else ud2
    .ok ud3

/-- The "+ ID:" branch of applyLineItemChanges.  t is the trimmed
    instruction, rest the characters after "+ ID:".  A zero-row update still
    succeeds (null supabase error), so itemsUpdated is incremented whenever
    the update call itself does not fail. -/
def updateStep (pid : Nat) (db : DB) (s : Summary) (t rest : List Char) :
    Except JsError (DB × Summary) :=
  let ds := rest.takeWhile Char.isDigit
  if ds = [] then .ok (db, pushErr s ("Invalid update instruction: " ++ String.mk t))
  else
    let itemId := digitsVal ds
    let attrs := parseAttrsC (trimChars (afterFirstComma t))
    match mkUpdateData attrs with
    | .error e => .error e
    | .ok ud =>
      let items2 := db.items.map fun it =>
        if it.id == itemId && it.projectId == pid then applyUpdateData it ud else it
      .ok ({ db with items := items2 }, { s with itemsUpdated := s.itemsUpdated + 1 })

/-- The "- ID:" branch of applyLineItemChanges.  A delete matching zero rows
    returns a null supabase error, so the success branch runs and
    itemsDeleted is incremented whether or not a row existed. -/
def deleteStep (pid : Nat) (db : DB) (s : Summary) (t rest : List Char) :
    Except JsError (DB × Summary) :=
  let ds := rest.takeWhile Char.isDigit
  if ds = [] then .ok (db, pushErr s ("Invalid delete instruction: " ++ String.mk t))
  else
    let itemId := digitsVal ds
    let items2 := db.items.filter fun it => !(it.id == itemId && it.projectId == pid)
    .ok ({ db with items := items2 }, { s with itemsDeleted := s.itemsDeleted + 1 })

/-- The add path's cost-type computation: let costType = attributes.cost_type;
    if (!costType && attributes.description) classify the lowercased
    description (TypeError on a non-string description). -/
def costTypeForAdd (attrs : List (String × Value)) : Except JsError Value :=
  let ct := jsGet attrs "cost_type"
  if !ct.truthy && (jsGet attrs "description").truthy then
    match (jsGet attrs "description").toLowerString? with
    | none => .error .typeError
    | some low => .ok (.str (inferCostTypeKeywords low))
  else .ok ct

/-- The itemData object literal of the add path, before parent resolution.
    The fresh id the insert will assign is passed in. -/
def mkItemData (pid : Nat) (uid cur : String) (attrs : List (String × Value))
    (ct : Value) (newId : Nat) : Item :=
  { id := newId
    projectId := pid
    description := jsGet attrs "description"
    title := jsOr (jsGet attrs "title") (jsGet attrs "description")
    quantity := jsGet attrs "quantity"
    unitPrice := jsGet attrs "unit_price"
    amount := jsGet attrs "amount"
    currency := .str cur
    createdBy := .str uid
    unitType := jsOr (jsGet attrs "unit_type") (.str "unit")
    costType := jsOr ct (.str "material")
    isSubItem := jsOr (jsGet attrs "is_sub_item") (.bool false)
    status := jsOr (jsGet attrs "status") (.str "active")
    parentItemId := none
    dataField :=
      if (jsGet attrs "data").truthy then .json (jsGet attrs "data") else .aiGenerated
    extra := [] }

/-- Parent resolution of the add path: a truthy parent attribute is looked up
    by exact description match within the project (first row in table order);
    a miss appends a non-fatal error and leaves the item a root item; a
    parent_id attribute is taken as the id directly. -/
def resolveParent (pid : Nat) (db : DB) (attrs : List (String × Value))
    (itemData : Item) (s : Summary) : Item × Summary :=
  if (jsGet attrs "parent").truthy then
    match db.items.find? (fun it =>
        it.projectId == pid && it.description == jsGet attrs "parent") with
    | none =>
      (itemData, pushErr s ("Could not find parent item: " ++ (jsGet attrs "parent").jsToString))
    | some p => ({ itemData with parentItemId := some (.num p.id), isSubItem := .bool true }, s)
  else if (jsGet attrs "parent_id").truthy then
    ({ itemData with parentItemId := some (jsGet attrs "parent_id"), isSubItem := .bool true }, s)
  else (itemData, s)

/-- The attribute defaulting of the add path: quantity falls back to 1 and
    unit_price to 0 under ||, and a falsy amount is replaced by
    attributes.quantity * attributes.unit_price. -/
def addDefaults (attrs0 : List (String × Value)) : List (String × Value) :=
  let attrs := setKey attrs0 "quantity" (jsOr (jsGet attrs0 "quantity") (.num 1))
  let attrs := setKey attrs "unit_price" (jsOr (jsGet attrs "unit_price") (.num 0))
  if !(jsGet attrs "amount").truthy then
    setKey attrs "amount" (jsMul (jsGet attrs "quantity") (jsGet attrs "unit_price"))
  else attrs

/-- The "+" (add) branch of applyLineItemChanges.  t is the trimmed
    instruction, attributesStr the trimmed characters after the "+". -/
def addStep (pid : Nat) (uid cur : String) (db : DB) (s : Summary)
    (t attributesStr : List Char) : Except JsError (DB × Summary) :=
  let attrs0 := parseAttrsC attributesStr
  if !(jsGet attrs0 "description").truthy then
    .ok (db, pushErr s ("Missing description in add instruction: " ++ String.mk t))
  else
    let attrs := addDefaults attrs0
    match costTypeForAdd attrs with
    | .error e => .error e
    | .ok ct =>
      let itemData := mkItemData pid uid cur attrs ct db.nextId
      let (itemData, s) := resolveParent pid db attrs itemData s
      .ok ({ items := db.items ++ [itemData], nextId := db.nextId + 1 },
        { s with itemsAdded := s.itemsAdded + 1 })

/-- One loop iteration of applyLineItemChanges: trim, skip empty, and
    dispatch on the "+ ID:", "- ID:", "+" prefixes, recording an unknown
    instruction format otherwise. -/
def applyInstruction (pid : Nat) (uid cur : String) (acc : DB × Summary)
    (instruction : String) : Except JsError (DB × Summary) :=
  let t := trimChars instruction.data
  if t = [] then .ok acc
  else if ['+', ' ', 'I', 'D', ':'].isPrefixOf t then
    updateStep pid acc.1 acc.2 t (t.drop 5)
  else if ['-', ' ', 'I', 'D', ':'].isPrefixOf t then
    deleteStep pid acc.1 acc.2 t (t.drop 5)
  else if ['+'].isPrefixOf t then
    addStep pid uid cur acc.1 acc.2 t (trimChars (t.drop 1))
  else .ok (acc.1, pushErr acc.2 ("Unknown instruction format: " ++ String.mk t))

/-- applyLineItemChanges: fold the instruction list over one shared summary,
    starting from zero counters; a raised JS exception aborts the batch. -/
def applyLineItemChanges (pid : Nat) (uid : String) (instructions : List String)
    (cur : String) (db : DB) : Except JsError (DB × Summary) :=
  instructions.foldlM (applyInstruction pid uid cur) (db, ⟨0, 0, 0, []⟩)

/- ------------------------------------------------------------------ -/
/- Connection Manager (src/services/connectionManager.js).             -/
/- ------------------------------------------------------------------ -/

/-- The slice of an HTTP response handle the manager inspects: whether its
    headers were already sent and whether it has an end method. -/
structure RespHandle where
  headersSent : Bool
  hasEnd : Bool
deriving DecidableEq, Repr

/-- Metadata stored per connection by ConnectionManager.add. -/
structure ConnEntry where
  response : RespHandle
  userId : String
  startTime : Nat
  lastActivity : Nat
  bytesWritten : Nat
deriving DecidableEq, Repr

/-- The manager's state: the connections Map and the per-user count Map
    (counts are JS numbers, modeled as integers). -/
structure CMState where
  connections : List (String × ConnEntry)
  userConnectionCounts : List (String × Int)
deriving DecidableEq, Repr

/-- The freshly constructed manager. -/
def initCM : CMState := ⟨[], []⟩

/-- this.userConnectionCounts.get(userId) || 0. -/
def getUserConnectionCount (st : CMState) (userId : String) : Int :=
  (lookupKey st.userConnectionCounts userId).getD 0

/-- ConnectionManager.add: record the entry (bytesWritten 0, both timestamps
    now) and increment the owner's count. -/
def CMState.add (st : CMState) (id : String) (resp : RespHandle) (userId : String)
    (now : Nat) : CMState :=
  { connections := setKey st.connections id ⟨resp, userId, now, now, 0⟩
    userConnectionCounts :=
      setKey st.userConnectionCounts userId (getUserConnectionCount st userId + 1) }

/-- External side effects a manager call can make on a response handle. -/
inductive CMEffect where
  | endResponse (id : String)
deriving DecidableEq, Repr

/-- ConnectionManager.remove: for a tracked id, decrement the owner's count
    only when it is positive, call response.end() only when headers were not
    yet sent, and delete the entry; an untracked id does nothing. -/
def CMState.remove (st : CMState) (id : String) : CMState × List CMEffect :=
  match lookupKey st.connections id with
  | none => (st, [])
  | some conn =>
    let userCount := getUserConnectionCount st conn.userId
    let counts :=
      if userCount > 0 then setKey st.userConnectionCounts conn.userId (userCount - 1)
      else st.userConnectionCounts
    let effects :=
      if !conn.response.headersSent && conn.response.hasEnd then [.endResponse id] else []
    (⟨delKey st.connections id, counts⟩, effects)

/-- ConnectionManager.updateActivity: refresh lastActivity and add bytes. -/
def CMState.updateActivity (st : CMState) (id : String) (bytes now : Nat) : CMState :=
  match lookupKey st.connections id with
  | none => st
  | some conn =>
    let conn2 := { conn with lastActivity := now, bytesWritten := conn.bytesWritten + bytes }
    { st with connections := setKey st.connections id conn2 }

/-- One call in an add/remove history against the manager. -/
inductive CMOp where
  | add (id : String) (resp : RespHandle) (userId : String) (now : Nat)
  | remove (id : String)
deriving DecidableEq, Repr

/-- Run one call, discarding response-handle effects. -/
def runCMOp (st : CMState) (op : CMOp) : CMState :=
  match op with
  | .add id resp userId now => st.add id resp userId now
  | .remove id => (st.remove id).1

/-- Run a call history from the freshly constructed manager. -/
def runCMOps (ops : List CMOp) : CMState :=
  ops.foldl runCMOp initCM

/- ------------------------------------------------------------------ -/
/- GET /api/stream/connect handler (streaming routes, router.get, with   -/
/- the per-user limit check before connectionManager.add).              -/
/- ------------------------------------------------------------------ -/

/-- What the connect handler's synchronous part produces: the HTTP status,
    the error and message fields of a JSON reply (when rejected), the manager
    state afterwards, and the registered connection id (when admitted). -/
structure ConnectOutcome where
  status : Nat
  errorField : Option String
  messageField : Option String
  newState : CMState
  registeredId : Option String
deriving DecidableEq, Repr

/-- The /connect handler: reject with 429 when the caller already holds 3
    connections, otherwise register the connection and record the bytes of
    the initial connection event via updateActivity. -/
def connectHandler (st : CMState) (userId connectionId : String) (resp : RespHandle)
    (now bytesWritten : Nat) : ConnectOutcome :=
  if getUserConnectionCount st userId ≥ 3 then
    { status := 429
      errorField := some "Connection limit reached"
      messageField := some "Maximum 3 concurrent streaming connections allowed per user"
      newState := st
      registeredId := none }
  else
    let st1 := st.add connectionId resp userId now
    let st2 := st1.updateActivity connectionId bytesWritten now
    { status := 200, errorField := none, messageField := none
      newState := st2, registeredId := some connectionId }

/- ------------------------------------------------------------------ -/
/- Streaming Session (httpStreamingMiddleware): res.stream.write,      -/
/- res.stream.writeHeartbeat, res.stream.end, the 30-second heartbeat  -/
/- interval, and the req close handler that clears it.                 -/
/- ------------------------------------------------------------------ -/

/-- One call on the underlying response object.  line d models
    res.write(JSON.stringify(d) + newline), heartbeat models the bare
    newline write, endResponse models res.end(). -/
inductive StreamWrite where
  | line (d : String)
  | heartbeat
  | endResponse
deriving DecidableEq, Repr

/-- Session state: whether the heartbeat interval is still installed, and
    the ordered log of calls made on the underlying response. -/
structure SessionState where
  heartbeatActive : Bool
  resLog : List StreamWrite
deriving DecidableEq, Repr

/-- State right after the middleware ran: interval installed, nothing
    written. -/
def initSession : SessionState := ⟨true, []⟩

/-- An occurrence during the session's lifetime: a producer write, a
    30-second interval tick, res.stream.end (with an optional final event),
    or the transport's close notification. -/
inductive SEvent where
  | write (d : String)
  | tick
  | endStream (finalData : Option String)
  | close
deriving DecidableEq, Repr

/-- One occurrence, as implemented by httpStreamingMiddleware:
    res.stream.write always writes a line; a tick writes a heartbeat only
    while the interval is installed (setInterval is cleared by nothing but
    the close handler); res.stream.end writes the optional final event and
    calls res.end(); close clears the interval. -/
def sessionStep (st : SessionState) (e : SEvent) : SessionState :=
  match e with
  | .write d => { st with resLog := st.resLog ++ [.line d] }
  | .tick =>
    if st.heartbeatActive then { st with resLog := st.resLog ++ [.heartbeat] } else st
  | .endStream finalData =>
    let finalWrites : List StreamWrite :=
      match finalData with
      | some d => [.line d, .endResponse]
      | none => [.endResponse]
    { st with resLog := st.resLog ++ finalWrites }
  | .close => { st with heartbeatActive := false }

/-- Run a trace of occurrences from the fresh session. -/
def sessionRun (evs : List SEvent) : SessionState :=
  evs.foldl sessionStep initSession

/-- Is a response-log entry res.end()? -/
def isEndWrite : StreamWrite → Bool
  | .endResponse => true
  | _ => false

/-- A log is post-end clean when no write (line or heartbeat) follows an
    endResponse entry. -/
def logClean : List StreamWrite → Bool
  | [] => true
  | .line _ :: rest => logClean rest
  | .heartbeat :: rest => logClean rest
  | .endResponse :: rest => rest.all isEndWrite

/- ------------------------------------------------------------------ -/
/- LLM Response Normalizer: processGeminiResponse                      -/
/- (src/services/geminiService.js, lines 114-173).                     -/
/-                                                                     -/
/- The external XML library (fast-xml-parser, trimValues on by default) -/
/- is modeled by direct tag-span extraction: the estimate element is    -/
/- the text between the first <estimate> and the following </estimate>; -/
/- project_title, currency and action elements are read the same way,   -/
/- their text content trimmed.  Attribute syntax, nesting and entity    -/
/- handling beyond these known tags are outside the model.              -/
/- ------------------------------------------------------------------ -/

/-- Split at the LAST occurrence of pat (fuel-bounded recursion over the
    first-occurrence split; the fuel used by callers always suffices). -/
def lastSplitSub : Nat → List Char → List Char → Option (List Char × List Char)
  | 0, _, _ => none
  | fuel + 1, l, pat =>
    match splitOnSub l pat with
    | none => none
    | some (b, a) =>
      match lastSplitSub fuel a pat with
      | some (b2, a2) => some (b ++ pat ++ b2, a2)
      | none => some (b, a)

/-- The fenced-block regex of processGeminiResponse: from the first triple
    backtick, drop an optional xml tag and whitespace, and capture lazily up
    to the next triple backtick. -/
def extractFenced (t : List Char) : Option (List Char) :=
  match splitOnSub t "```".data with
  | none => none
  | some (_, rest) =>
    let rest1 := if "xml".data.isPrefixOf rest then rest.drop 3 else rest
    let rest2 := rest1.dropWhile isWsChar
    match splitOnSub rest2 "```".data with
    | some (content, _) => some content
    | none => none

/-- The greedy fallback span: from the first <estimate> to the last
    </estimate> of the raw text, tags included. -/
def estimateSpanOf (t : List Char) : Option (List Char) :=
  match splitOnSub t "<estimate>".data with
  | none => none
  | some (_, rest) =>
    match lastSplitSub (rest.length + 1) rest "</estimate>".data with
    | none => none
    | some (mid, _) => some ("<estimate>".data ++ mid ++ "</estimate>".data)

/-- xmlString as chosen by processGeminiResponse before parsing: the trimmed
    fenced content when a fenced block exists, else the raw text; if that
    string does not contain <estimate>, fall back to the raw estimate span
    when one exists. -/
def xmlStringOf (t : List Char) : List Char :=
  let xmlString :=
    match extractFenced t with
    | some content => trimChars content
    | none => t
  if containsSub xmlString "<estimate>".data then xmlString
  else
    match estimateSpanOf t with
    | some spanChars => spanChars
    | none => xmlString

/-- Text content of the first element named tag: between its open tag and
    the following close tag, trimmed as fast-xml-parser does. -/
def extractText (content : List Char) (tag : String) : Option String :=
  match splitOnSub content (('<' :: tag.data) ++ ['>']) with
  | none => none
  | some (_, r) =>
    match splitOnSub r (('<' :: '/' :: tag.data) ++ ['>']) with
    | none => none
    | some (txt, _) => some (String.mk (trimChars txt))

/-- Texts of the action elements inside the actions element, in order. -/
def collectActions : Nat → List Char → List String
  | 0, _ => []
  | fuel + 1, l =>
    match splitOnSub l "<action>".data with
    | none => []
    | some (_, r) =>
      match splitOnSub r "</action>".data with
      | none => []
      | some (txt, rest) => String.mk (trimChars txt) :: collectActions fuel rest

/-- The result.estimate.actions.action field, as fast-xml-parser shapes it:
    absent (no actions element, or no action children so the member test
    fails), one action text, or an array of action texts. -/
inductive ActionsField where
  | absent
  | one (s : String)
  | many (ss : List String)
deriving DecidableEq, Repr

/-- The fields of a parsed estimate element this function reads. -/
structure EstimateDoc where
  title : Option String
  currency : Option String
  actions : ActionsField
deriving DecidableEq, Repr

/-- Parse the chosen xmlString: none when it holds no complete estimate
    element (XMLParser then either errors or yields no estimate member,
    and the source throws Missing estimate data either way). -/
def parseEstimateXml (s : List Char) : Option EstimateDoc :=
  match splitOnSub s "<estimate>".data with
  | none => none
  | some (_, rest) =>
    match splitOnSub rest "</estimate>".data with
    | none => none
    | some (content, _) =>
      let actionsField :=
        match splitOnSub content "<actions>".data with
        | none => ActionsField.absent
        | some (_, r) =>
          match splitOnSub r "</actions>".data with
          | none => ActionsField.absent
          | some (inner, _) =>
            match collectActions (inner.length + 1) inner with
            | [] => ActionsField.absent
            | [a] => ActionsField.one a
            | acts => ActionsField.many acts
      some ⟨extractText content "project_title", extractText content "currency", actionsField⟩

/-- Does the chosen xmlString contain a complete <estimate> ... </estimate>
    container element (open tag followed, later, by a close tag)? -/
def hasEstimateSpanB (s : List Char) : Bool :=
  match splitOnSub s "<estimate>".data with
  | none => false
  | some (_, rest) => (splitOnSub rest "</estimate>".data).isSome

/-- JS s1 || s2 on strings: the empty string falls through to the default. -/
def jsOrS (o : Option String) (d : String) : String :=
  match o with
  | none => d
  | some s => if s = "" then d else s

/-- String-level trim. -/
def jsTrimS (s : String) : String := String.mk (trimChars s.data)

/-- The instruction list built from result.estimate.actions: nothing when
    actions or actions.action is falsy, one trimmed string for a single
    action element, the trimmed texts in order for an array. -/
def actionsToInstructions : ActionsField → List String
  | .absent => []
  | .one s => if s = "" then [] else [jsTrimS s]
  | .many ss => ss.map jsTrimS

/-- What processGeminiResponse returns on success. -/
structure GeminiResult where
  projectTitle : String
  currency : String
  instructions : List String
deriving DecidableEq, Repr

/-- processGeminiResponse from src/services/geminiService.js: choose the
    xmlString, parse it, fail hard when no estimate element is found, and
    otherwise default the title to Untitled Project and the currency to USD
    and collect the trimmed action strings. -/
def processGeminiResponse (responseText : String) : Except String GeminiResult :=
  match parseEstimateXml (xmlStringOf responseText.data) with
  | none =>
    .error "Failed to parse XML response: Missing estimate data in XML response"
  | some doc =>
    .ok { projectTitle := jsOrS doc.title "Untitled Project"
          currency := jsOrS doc.currency "USD"
          instructions := actionsToInstructions doc.actions }

/- ------------------------------------------------------------------ -/
/- Helper lemmas about the association-list primitives.                -/
/- ------------------------------------------------------------------ -/

theorem lookupKey_setKey_self {α : Type} (l : List (String × α)) (k : String) (v : α) :
    lookupKey (setKey l k v) k = some v := by
  induction l with
  | nil => simp [setKey, lookupKey]
  | cons kv rest ih =>
    obtain ⟨k2, v2⟩ := kv
    by_cases h : k2 = k
    · simp [setKey, h, lookupKey]
    · simp [setKey, h, lookupKey, ih]

theorem lookupKey_setKey_ne {α : Type} (l : List (String × α)) (k k0 : String) (v : α)
    (h : k ≠ k0) : lookupKey (setKey l k0 v) k = lookupKey l k := by
  induction l with
  | nil => simp [setKey, lookupKey, Ne.symm h]
  | cons kv rest ih =>
    obtain ⟨k2, v2⟩ := kv
    by_cases h2 : k2 = k0
    · subst h2
      simp [setKey, lookupKey, Ne.symm h]
    · simp [setKey, h2, lookupKey, ih]

theorem jsGet_setKey_self (l : List (String × Value)) (k : String) (v : Value) :
    jsGet (setKey l k v) k = v := by
  simp [jsGet, lookupKey_setKey_self]

theorem jsGet_setKey_ne (l : List (String × Value)) (k k0 : String) (v : Value)
    (h : k ≠ k0) : jsGet (setKey l k0 v) k = jsGet l k := by
  simp [jsGet, lookupKey_setKey_ne _ _ _ _ h]

theorem lookupKey_mem {α : Type} {l : List (String × α)} {k : String} {v : α}
    (h : lookupKey l k = some v) : (k, v) ∈ l := by
  induction l with
  | nil => simp [lookupKey] at h
  | cons kv rest ih =>
    obtain ⟨k2, v2⟩ := kv
    by_cases h2 : k2 = k
    · subst h2
      simp [lookupKey] at h
      subst h
      exact List.mem_cons_self _ _
    · simp [lookupKey, h2] at h
      exact List.mem_cons_of_mem _ (ih h)

theorem mem_setKey {α : Type} (l : List (String × α)) (k : String) (v : α)
    (q : String × α) (hq : q ∈ setKey l k v) : q = (k, v) ∨ q ∈ l := by
  induction l with
  | nil => simpa [setKey] using hq
  | cons kv rest ih =>
    obtain ⟨k2, v2⟩ := kv
    by_cases h : k2 = k
    · simp [setKey, h] at hq
      rcases hq with h1 | h1
      · left
        simpa using h1
      · right
        exact List.mem_cons_of_mem _ h1
    · simp [setKey, h] at hq
      rcases hq with h1 | h1
      · right
        simp [h1]
      · rcases ih h1 with h2 | h2
        · left; exact h2
        · right; exact List.mem_cons_of_mem _ h2

theorem lookupKey_delKey_self {α : Type} (l : List (String × α)) (k : String) :
    lookupKey (delKey l k) k = none := by
  induction l with
  | nil => rfl
  | cons kv rest ih =>
    obtain ⟨k2, v2⟩ := kv
    by_cases h : k2 = k
    · simpa [delKey, List.filter_cons, h] using ih
    · simpa [delKey, List.filter_cons, h, lookupKey] using ih

/- ------------------------------------------------------------------ -/
/- Claim C1 (delete of a non-existent id).                             -/
/- ------------------------------------------------------------------ -/

/-- Claim C1, counterexample: deleting id 99 from a project with no items
    succeeds with no error and no exception, but the returned summary has
    itemsDeleted = 1 — the claim says the counter must not be incremented.
    (The supabase delete call matches zero rows and still returns a null
    error, so the success branch runs.) -/
theorem delete_nonexistent_increments_counter :
    applyLineItemChanges 1 "u" ["- ID:99"] "USD" ⟨[], 1⟩
      = Except.ok (⟨[], 1⟩, ⟨0, 0, 1, []⟩) ∧
    (⟨0, 0, 1, []⟩ : Summary).itemsDeleted ≠ 0 := by
  exact ⟨rfl, by decide⟩

/-- Claim C1, amended: a delete instruction whose id matches no line item of
    the target project leaves the item set unchanged, appends no error and
    raises no exception, but it does increment itemsDeleted (the zero-row
    supabase delete still reports success). -/
theorem deleteStep_missing_id (pid : Nat) (db : DB) (s : Summary) (t rest : List Char)
    (hds : rest.takeWhile Char.isDigit ≠ [])
    (hno : ∀ it ∈ db.items,
      ¬(it.id = digitsVal (rest.takeWhile Char.isDigit) ∧ it.projectId = pid)) :
    deleteStep pid db s t rest = .ok (db, { s with itemsDeleted := s.itemsDeleted + 1 }) := by
  have hfil : (db.items.filter fun it =>
      !(it.id == digitsVal (rest.takeWhile Char.isDigit) && it.projectId == pid)) = db.items := by
    apply List.filter_eq_self.mpr
    intro it hit
    have h := hno it hit
    simp only [Bool.not_eq_true', Bool.and_eq_false_iff, beq_iff_eq, beq_eq_false_iff_ne]
    by_cases h1 : it.id = digitsVal (rest.takeWhile Char.isDigit)
    · right
      intro h2
      exact h ⟨h1, h2⟩
    · left
      exact h1
  unfold deleteStep
  dsimp only
  rw [if_neg hds, hfil]

/-- Witness for the amended C1 theorem at a concrete empty project. -/
theorem deleteStep_missing_id_witness :
    deleteStep 1 ⟨[], 1⟩ ⟨0, 0, 0, []⟩ [] ['9', '9'] = .ok (⟨[], 1⟩, ⟨0, 0, 1, []⟩) :=
  deleteStep_missing_id 1 ⟨[], 1⟩ ⟨0, 0, 0, []⟩ [] ['9', '9'] (by decide)
    (by intro it hit; simp at hit)

/- ------------------------------------------------------------------ -/
/- Claim C2 (quoted values), counterexample part.                      -/
/- ------------------------------------------------------------------ -/

/-- Claim C2, counterexample: the attribute value "5" is wrapped in matching
    double quotes, yet the parser returns the number 5, not the string "5" —
    the scan loop consumes the quote characters before processValue can see
    them, so its quoted-string branch never fires on this input. -/
theorem quoted_numeric_value_coerced :
    parseInstructionAttributes "quantity=\"5\"" = [("quantity", Value.num 5)] ∧
    Value.num 5 ≠ Value.str "5" := by
  exact ⟨rfl, by decide⟩

/- ------------------------------------------------------------------ -/
/- Claim C5 (no writes after end).                                     -/
/- ------------------------------------------------------------------ -/

/-- Claim C5, counterexample: in the trace end-then-tick the heartbeat
    interval, which only the close handler clears, still fires after
    res.end() and writes a heartbeat to the response, so the session's
    response log is not post-end clean. -/
theorem heartbeat_written_after_end :
    (sessionRun [SEvent.endStream none, SEvent.tick]).resLog
      = [StreamWrite.endResponse, StreamWrite.heartbeat] ∧
    logClean (sessionRun [SEvent.endStream none, SEvent.tick]).resLog = false := by
  exact ⟨rfl, rfl⟩

/-- Claim C5, amended: the heartbeat timer is cancelled by the transport's
    close notification, not by end(): after a close event, heartbeat ticks
    write nothing more (the session state, including the response log, stays
    exactly as it was at the close), while a tick that falls between end()
    and close still writes. -/
theorem no_heartbeat_after_close (evs1 evs2 : List SEvent)
    (h : ∀ e ∈ evs2, e = SEvent.tick) :
    sessionRun (evs1 ++ SEvent.close :: evs2) = sessionRun (evs1 ++ [SEvent.close]) := by
  have key : ∀ (l : List SEvent) (st : SessionState), st.heartbeatActive = false →
      (∀ e ∈ l, e = SEvent.tick) → l.foldl sessionStep st = st := by
    intro l
    induction l with
    | nil => intro st _ _; rfl
    | cons e rest ih =>
      intro st hact hl
      have he : e = SEvent.tick := hl e (List.mem_cons_self _ _)
      have hstep : sessionStep st e = st := by
        subst he
        simp [sessionStep, hact]
      rw [List.foldl_cons, hstep]
      exact ih st hact fun x hx => hl x (List.mem_cons_of_mem _ hx)
  have h1 : evs1 ++ SEvent.close :: evs2 = (evs1 ++ [SEvent.close]) ++ evs2 := by simp
  rw [h1]
  unfold sessionRun
  rw [List.foldl_append]
  apply key
  · rw [List.foldl_append]
    rfl
  · exact h

/-- Witness for the amended C5 theorem: a tick right after close is a no-op. -/
theorem no_heartbeat_after_close_witness :
    sessionRun ([] ++ SEvent.close :: [SEvent.tick]) = sessionRun ([] ++ [SEvent.close]) :=
  no_heartbeat_after_close [] [SEvent.tick] (by intro e he; simpa using he)

/- ------------------------------------------------------------------ -/
/- Claim C6 (fourth connection rejected with 429).                     -/
/- ------------------------------------------------------------------ -/

/-- Claim C6: when the caller already holds 3 (or more) open streaming
    connections, the /connect handler replies 429 with error
    "Connection limit reached" and the limit message, registers nothing, and
    leaves the Connection Manager state — hence the user's count — unchanged. -/
theorem connect_fourth_rejected (st : CMState) (u cid : String) (resp : RespHandle)
    (now bytes : Nat) (h : 3 ≤ getUserConnectionCount st u) :
    connectHandler st u cid resp now bytes =
      ⟨429, some "Connection limit reached",
        some "Maximum 3 concurrent streaming connections allowed per user", st, none⟩ := by
  unfold connectHandler
  rw [if_pos h]

/-- A manager state in which user u holds three open connections. -/
def cmThreeConns : CMState :=
  runCMOps [CMOp.add "a" ⟨true, true⟩ "u" 0, CMOp.add "b" ⟨true, true⟩ "u" 0,
    CMOp.add "c" ⟨true, true⟩ "u" 0]

/-- Witness for C6 at a concrete three-connection state. -/
theorem connect_fourth_rejected_witness :
    3 ≤ getUserConnectionCount cmThreeConns "u" ∧
    connectHandler cmThreeConns "u" "d" ⟨false, true⟩ 5 10 =
      ⟨429, some "Connection limit reached",
        some "Maximum 3 concurrent streaming connections allowed per user", cmThreeConns, none⟩ :=
  ⟨by decide, connect_fourth_rejected cmThreeConns "u" "d" ⟨false, true⟩ 5 10 (by decide)⟩

/- ------------------------------------------------------------------ -/
/- Claim C8 (user connection counts never negative).                   -/
/- ------------------------------------------------------------------ -/

/-- Every stored per-user counter is non-negative. -/
def CountsNonneg (st : CMState) : Prop :=
  ∀ p ∈ st.userConnectionCounts, 0 ≤ p.2

theorem countsNonneg_lookup (st : CMState) (h : CountsNonneg st) (u : String) :
    0 ≤ getUserConnectionCount st u := by
  unfold getUserConnectionCount
  rcases hl : lookupKey st.userConnectionCounts u with _ | v
  · simp
  · simpa using h (u, v) (lookupKey_mem hl)

theorem countsNonneg_step (st : CMState) (op : CMOp) (h : CountsNonneg st) :
    CountsNonneg (runCMOp st op) := by
  cases op with
  | add id resp u now =>
    intro p hp
    simp only [runCMOp, CMState.add] at hp
    rcases mem_setKey _ _ _ _ hp with h1 | h1
    · subst h1
      have := countsNonneg_lookup st h u
      simpa using by omega
    · exact h p h1
  | remove id =>
    intro p hp
    rcases hl : lookupKey st.connections id with _ | conn
    · simp only [runCMOp, CMState.remove, hl] at hp
      exact h p hp
    · by_cases hc : getUserConnectionCount st conn.userId > 0
      · simp only [runCMOp, CMState.remove, hl, if_pos hc] at hp
        rcases mem_setKey _ _ _ _ hp with h1 | h1
        · subst h1
          simpa using by omega
        · exact h p h1
      · simp only [runCMOp, CMState.remove, hl, if_neg hc] at hp
        exact h p hp

theorem countsNonneg_runOps (ops : List CMOp) :
    ∀ st : CMState, CountsNonneg st → CountsNonneg (ops.foldl runCMOp st) := by
  induction ops with
  | nil => intro st h; exact h
  | cons op rest ih =>
    intro st h
    rw [List.foldl_cons]
    exact ih _ (countsNonneg_step st op h)

/-- Claim C8: after any sequence of ConnectionManager add and remove calls
    from the fresh manager — including removes of unknown or already-removed
    ids — getUserConnectionCount of every user is non-negative (remove only
    decrements a counter it found positive). -/
theorem getUserConnectionCount_nonneg (ops : List CMOp) (u : String) :
    0 ≤ getUserConnectionCount (runCMOps ops) u := by
  apply countsNonneg_lookup
  apply countsNonneg_runOps
  intro p hp
  simp [initCM] at hp

/- ------------------------------------------------------------------ -/
/- Claim C10 (remove of an untracked id is the identity).              -/
/- ------------------------------------------------------------------ -/

theorem remove_of_lookup_none (st : CMState) (id : String)
    (h : lookupKey st.connections id = none) : st.remove id = (st, []) := by
  unfold CMState.remove
  rw [h]

/-- Claim C10: removing a connection id that is not in the registry changes
    neither the connection map nor any per-user counter (and performs no
    response-handle effect); consequently remove followed by remove of the
    same id has exactly the effect of the single remove. -/
theorem remove_untracked_noop (st : CMState) (id : String) :
    (lookupKey st.connections id = none → st.remove id = (st, [])) ∧
    (st.remove id).1.remove id = ((st.remove id).1, []) := by
  refine ⟨remove_of_lookup_none st id, ?_⟩
  have h2 : lookupKey ((st.remove id).1).connections id = none := by
    rcases h : lookupKey st.connections id with _ | conn
    · rw [remove_of_lookup_none st id h]
      exact h
    · simp only [CMState.remove, h]
      exact lookupKey_delKey_self _ _
  exact remove_of_lookup_none _ id h2

/-- Witness for C10 at the empty registry. -/
theorem remove_untracked_noop_witness :
    initCM.remove "x" = (initCM, []) ∧
    (initCM.remove "x").1.remove "x" = ((initCM.remove "x").1, []) :=
  ⟨(remove_untracked_noop initCM "x").1 rfl, (remove_untracked_noop initCM "x").2⟩

/- ------------------------------------------------------------------ -/
/- Claim C2 (quoted values), amended part: the scan loop strips the    -/
/- quotes itself, so the stripped contents flow through processValue's -/
/- ordinary coercion.                                                  -/
/- ------------------------------------------------------------------ -/

theorem parseLoop_keyPhase (ks : List Char) (rest : List Char) (st : AttrSt)
    (hpk : st.parsingKey = true) (hks : '=' ∉ ks) :
    parseLoop (ks ++ rest) st = parseLoop rest { st with curKey := st.curKey ++ ks } := by
  induction ks generalizing st with
  | nil => simp
  | cons c ks ih =>
    have hc : (c == '=') = false := by
      simp only [beq_eq_false_iff_ne]
      intro he
      exact hks (by simp [he])
    have hks2 : '=' ∉ ks := fun hm => hks (List.mem_cons_of_mem _ hm)
    have hstep : stepChar st c = { st with curKey := st.curKey ++ [c] } := by
      simp [stepChar, hpk, hc]
    calc parseLoop ((c :: ks) ++ rest) st
        = parseLoop (ks ++ rest) (stepChar st c) := rfl
      _ = parseLoop (ks ++ rest) { st with curKey := st.curKey ++ [c] } := by rw [hstep]
      _ = parseLoop rest { st with curKey := (st.curKey ++ [c]) ++ ks } :=
          ih { st with curKey := st.curKey ++ [c] } hpk hks2
      _ = parseLoop rest { st with curKey := st.curKey ++ c :: ks } := by
          rw [List.append_assoc]
          rfl

theorem parseLoop_quotedPhase (vs : List Char) (rest : List Char) (st : AttrSt)
    (hpk : st.parsingKey = false) (hq : st.inQuote = true)
    (hvs : ∀ c ∈ vs, (c == st.quoteChar) = false) :
    parseLoop (vs ++ rest) st = parseLoop rest { st with curVal := st.curVal ++ vs } := by
  induction vs generalizing st with
  | nil => simp
  | cons c vs ih =>
    have hc : (c == st.quoteChar) = false := hvs c (List.mem_cons_self _ _)
    have hstep : stepChar st c = { st with curVal := st.curVal ++ [c] } := by
      simp [stepChar, hpk, hq, hc]
    calc parseLoop ((c :: vs) ++ rest) st
        = parseLoop (vs ++ rest) (stepChar st c) := rfl
      _ = parseLoop (vs ++ rest) { st with curVal := st.curVal ++ [c] } := by rw [hstep]
      _ = parseLoop rest { st with curVal := (st.curVal ++ [c]) ++ vs } :=
          ih { st with curVal := st.curVal ++ [c] } hpk hq
            (fun c2 h2 => hvs c2 (List.mem_cons_of_mem _ h2))
      _ = parseLoop rest { st with curVal := st.curVal ++ c :: vs } := by
          rw [List.append_assoc]
          rfl

/-- Claim C2, amended: for an attribute key = "contents" whose value is
    wrapped in matching quotes — the quote character q being either a
    single quote or a double quote — the scan loop consumes the quote
    characters as delimiters (protecting commas and equal signs inside),
    and the bare contents are then handed to processValue like any
    unquoted value — so they undergo the ordinary coercion
    (numeric-looking contents become numbers, true/false become booleans,
    categorical keys stay strings) instead of being returned verbatim as
    a string. -/
theorem quoted_value_tokenized_then_coerced (q : Char) (k v : List Char)
    (hq : q = squoteC ∨ q = dquoteC)
    (hk0 : k ≠ []) (hk1 : trimChars k = k) (hk2 : '=' ∉ k)
    (hkid : ¬ (['I', 'D', ':'].isPrefixOf (k ++ '=' :: q :: (v ++ [q])) = true))
    (hv : ∀ c ∈ v, (c == q) = false) :
    parseAttrsC (k ++ '=' :: q :: (v ++ [q]))
      = [(String.mk k, processValueC (trimChars v) k)] := by
  have e1 : parseAttrsC (k ++ '=' :: q :: (v ++ [q]))
      = parseLoop (k ++ '=' :: q :: (v ++ [q])) initAttrSt := by
    unfold parseAttrsC
    rw [if_neg hkid]
  rw [e1, parseLoop_keyPhase k _ initAttrSt rfl hk2]
  have e2 : parseLoop ('=' :: q :: (v ++ [q]))
        { initAttrSt with curKey := initAttrSt.curKey ++ k }
      = parseLoop (q :: (v ++ [q])) ⟨[], trimChars ([] ++ k), [], false, ' ', false⟩ := rfl
  rw [e2]
  rw [show trimChars ([] ++ k) = k from by rw [List.nil_append, hk1]]
  have hqd : (q == squoteC || q == dquoteC) = true := by
    rcases hq with h | h <;> simp [h]
  have e3 : stepChar ⟨[], k, [], false, ' ', false⟩ q = ⟨[], k, [], true, q, false⟩ := by
    simp [stepChar, hqd]
  have e4 : parseLoop (q :: (v ++ [q])) ⟨[], k, [], false, ' ', false⟩
      = parseLoop (v ++ [q]) (stepChar ⟨[], k, [], false, ' ', false⟩ q) := rfl
  rw [e4, e3]
  rw [parseLoop_quotedPhase v [q] ⟨[], k, [], true, q, false⟩ rfl rfl hv]
  have e5 : stepChar ⟨[], k, [] ++ v, true, q, false⟩ q
      = ⟨[], k, [] ++ v, false, q, false⟩ := by
    simp [stepChar]
  have e6 : parseLoop [q] ⟨[], k, [] ++ v, true, q, false⟩
      = parseLoop [] (stepChar ⟨[], k, [] ++ v, true, q, false⟩ q) := rfl
  rw [e6, e5]
  have e7 : parseLoop [] ⟨[], k, [] ++ v, false, q, false⟩
      = if k ≠ [] then commitPair ⟨[], k, [] ++ v, false, q, false⟩ else [] := rfl
  rw [e7, if_pos hk0]
  unfold commitPair
  simp [setKey]

/-- Witness for the amended C2 theorem, exercising both quote characters:
    quantity="5" tokenizes to the bare contents 5, coerced to the number 5,
    and a single-quoted quantity value 7 likewise becomes the number 7. -/
theorem quoted_value_tokenized_then_coerced_witness :
    (parseAttrsC ("quantity".data ++ '=' :: dquoteC :: (['5'] ++ [dquoteC]))
      = [(String.mk "quantity".data, processValueC (trimChars ['5']) "quantity".data)]) ∧
    (parseAttrsC ("quantity".data ++ '=' :: squoteC :: (['7'] ++ [squoteC]))
      = [(String.mk "quantity".data, processValueC (trimChars ['7']) "quantity".data)]) ∧
    processValueC (trimChars ['5']) "quantity".data = Value.num 5 ∧
    processValueC (trimChars ['7']) "quantity".data = Value.num 7 :=
  ⟨quoted_value_tokenized_then_coerced dquoteC "quantity".data ['5'] (Or.inr rfl)
      (by decide) (by decide) (by decide) (by decide) (by decide),
    quoted_value_tokenized_then_coerced squoteC "quantity".data ['7'] (Or.inl rfl)
      (by decide) (by decide) (by decide) (by decide) (by decide),
    by decide, by decide⟩

/- ------------------------------------------------------------------ -/
/- Claim C7 (normalizer contract).                                     -/
/- ------------------------------------------------------------------ -/

theorem parseEstimateXml_isSome (s : List Char) :
    (parseEstimateXml s).isSome = hasEstimateSpanB s := by
  unfold parseEstimateXml hasEstimateSpanB
  rcases h1 : splitOnSub s "<estimate>".data with _ | ⟨b, rest⟩
  · rfl
  · rcases h2 : splitOnSub rest "</estimate>".data with _ | ⟨c, after⟩
    · dsimp only
      rw [h2]
      rfl
    · dsimp only
      rw [h2]
      rfl

/-- Claim C7: processGeminiResponse succeeds exactly when its chosen
    xmlString (fenced content, else raw text, with the raw estimate-span
    fallback) holds a complete estimate container — otherwise it raises the
    Missing-estimate-data hard failure — and on success the project title
    defaults to "Untitled Project" when absent, the currency defaults to
    "USD" when absent, and the instruction list is the ordered, trimmed
    action texts, for a single action element as well as for an array. -/
theorem processGeminiResponse_contract (t : String) :
    ((processGeminiResponse t).isOk = hasEstimateSpanB (xmlStringOf t.data)) ∧
    (parseEstimateXml (xmlStringOf t.data) = none →
      processGeminiResponse t =
        .error "Failed to parse XML response: Missing estimate data in XML response") ∧
    (∀ doc : EstimateDoc, parseEstimateXml (xmlStringOf t.data) = some doc →
      processGeminiResponse t =
        .ok ⟨jsOrS doc.title "Untitled Project", jsOrS doc.currency "USD",
          actionsToInstructions doc.actions⟩ ∧
      (doc.title = none → jsOrS doc.title "Untitled Project" = "Untitled Project") ∧
      (doc.currency = none → jsOrS doc.currency "USD" = "USD") ∧
      (∀ a, doc.actions = ActionsField.one a → a ≠ "" →
        actionsToInstructions doc.actions = [jsTrimS a]) ∧
      (∀ as2, doc.actions = ActionsField.many as2 →
        actionsToInstructions doc.actions = as2.map jsTrimS)) := by
  refine ⟨?_, ?_, ?_⟩
  · rw [← parseEstimateXml_isSome]
    unfold processGeminiResponse
    rcases h : parseEstimateXml (xmlStringOf t.data) with _ | doc
    · rfl
    · rfl
  · intro h
    unfold processGeminiResponse
    rw [h]
  · intro doc hdoc
    refine ⟨?_, ?_, ?_, ?_, ?_⟩
    · unfold processGeminiResponse
      rw [hdoc]
    · intro h
      rw [h]
      rfl
    · intro h
      rw [h]
      rfl
    · intro a ha hne
      rw [ha]
      simp [actionsToInstructions, hne]
    · intro as2 ha
      rw [ha]
      rfl

/-- A concrete raw model text with one action and no title or currency. -/
def geminiT0 : String := "<estimate><actions><action>a</action></actions></estimate>"

/-- Witness for C7: the concrete text parses, succeeds, and picks up both
    defaults and the single trimmed action. -/
theorem processGeminiResponse_contract_witness :
    parseEstimateXml (xmlStringOf geminiT0.data)
      = some ⟨none, none, ActionsField.one "a"⟩ ∧
    processGeminiResponse geminiT0 = .ok ⟨"Untitled Project", "USD", ["a"]⟩ := by
  constructor
  · rfl
  · have h := (processGeminiResponse_contract geminiT0).2.2
      ⟨none, none, ActionsField.one "a"⟩ (by rfl)
    exact h.1



/- ------------------------------------------------------------------ -/
/- Claims C4 and C9 (add path: derived amount, defaults, zero values). -/
/- ------------------------------------------------------------------ -/

theorem resolveParent_fields (pid : Nat) (db : DB) (attrs : List (String × Value))
    (it : Item) (s : Summary) :
    ((resolveParent pid db attrs it s).1).quantity = it.quantity ∧
    ((resolveParent pid db attrs it s).1).unitPrice = it.unitPrice ∧
    ((resolveParent pid db attrs it s).1).amount = it.amount := by
  unfold resolveParent
  split
  · split <;> exact ⟨rfl, rfl, rfl⟩
  · split <;> exact ⟨rfl, rfl, rfl⟩

theorem addDefaults_quantity (attrs0 : List (String × Value)) :
    jsGet (addDefaults attrs0) "quantity" = jsOr (jsGet attrs0 "quantity") (.num 1) := by
  simp only [addDefaults]
  split
  · rw [jsGet_setKey_ne _ "quantity" "amount" _ (by decide),
      jsGet_setKey_ne _ "quantity" "unit_price" _ (by decide), jsGet_setKey_self]
  · rw [jsGet_setKey_ne _ "quantity" "unit_price" _ (by decide), jsGet_setKey_self]

theorem addDefaults_unitPrice (attrs0 : List (String × Value)) :
    jsGet (addDefaults attrs0) "unit_price"
      = jsOr (jsGet (setKey attrs0 "quantity" (jsOr (jsGet attrs0 "quantity") (.num 1)))
          "unit_price") (.num 0) := by
  simp only [addDefaults]
  split
  · rw [jsGet_setKey_ne _ "unit_price" "amount" _ (by decide), jsGet_setKey_self]
  · rw [jsGet_setKey_self]

theorem addDefaults_unitPrice_absent (attrs0 : List (String × Value))
    (h : lookupKey attrs0 "unit_price" = none) :
    jsGet (addDefaults attrs0) "unit_price" = Value.num 0 := by
  rw [addDefaults_unitPrice, jsGet_setKey_ne _ "unit_price" "quantity" _ (by decide)]
  simp [jsGet, h, jsOr, Value.truthy]

theorem addDefaults_amount_recomputed (attrs0 : List (String × Value))
    (h : (jsGet attrs0 "amount").truthy = false) :
    jsGet (addDefaults attrs0) "amount"
      = jsMul (jsGet (addDefaults attrs0) "quantity")
          (jsGet (addDefaults attrs0) "unit_price") := by
  have hb : jsGet (setKey (setKey attrs0 "quantity" (jsOr (jsGet attrs0 "quantity")
        (Value.num 1))) "unit_price"
        (jsOr (jsGet (setKey attrs0 "quantity" (jsOr (jsGet attrs0 "quantity") (Value.num 1)))
          "unit_price") (Value.num 0))) "amount" = jsGet attrs0 "amount" := by
    rw [jsGet_setKey_ne _ "amount" "unit_price" _ (by decide),
      jsGet_setKey_ne _ "amount" "quantity" _ (by decide)]
  simp only [addDefaults]
  rw [if_pos (by rw [hb, h]; rfl)]
  rw [jsGet_setKey_self, jsGet_setKey_ne _ "quantity" "amount" _ (by decide),
    jsGet_setKey_ne _ "unit_price" "amount" _ (by decide)]

theorem addStep_ok_shape (pid : Nat) (uid cur : String) (db : DB) (s : Summary)
    (t astr : List Char) (db2 : DB) (s2 : Summary)
    (hdesc : (jsGet (parseAttrsC astr) "description").truthy = true)
    (hok : addStep pid uid cur db s t astr = .ok (db2, s2)) :
    ∃ ct, costTypeForAdd (addDefaults (parseAttrsC astr)) = .ok ct ∧
      db2.items = db.items ++
        [(resolveParent pid db (addDefaults (parseAttrsC astr))
            (mkItemData pid uid cur (addDefaults (parseAttrsC astr)) ct db.nextId) s).1] := by
  simp only [addStep] at hok
  rw [hdesc] at hok
  simp only [Bool.not_true] at hok
  rw [if_neg (by decide : ¬((false : Bool) = true))] at hok
  rcases hct : costTypeForAdd (addDefaults (parseAttrsC astr)) with e | ct
  · rw [hct] at hok
    exact absurd hok (by simp)
  · rw [hct] at hok
    dsimp only at hok
    rcases hrp : resolveParent pid db (addDefaults (parseAttrsC astr))
        (mkItemData pid uid cur (addDefaults (parseAttrsC astr)) ct db.nextId) s
      with ⟨itd, s3⟩
    rw [hrp] at hok
    have hdb2 : db2 = ⟨db.items ++ [itd], db.nextId + 1⟩ := by
      have h3 := congrArg (fun x : Except JsError (DB × Summary) =>
        match x with
        | .ok p => p.1
        | .error _ => db2) hok
      simpa using h3.symm
    refine ⟨ct, rfl, ?_⟩
    rw [hdb2, hrp]

/-- Claim C4: a line item created by an add instruction that does not supply
    an amount attribute is persisted with amount equal to the JS product of
    its persisted quantity and unit price — where a missing quantity has
    defaulted to 1 and a missing unit_price to 0. -/
theorem addStep_amount_product (pid : Nat) (uid cur : String) (db : DB) (s : Summary)
    (t astr : List Char) (db2 : DB) (s2 : Summary)
    (hdesc : (jsGet (parseAttrsC astr) "description").truthy = true)
    (hamt : lookupKey (parseAttrsC astr) "amount" = none)
    (hok : addStep pid uid cur db s t astr = .ok (db2, s2)) :
    ∃ itNew : Item, db2.items = db.items ++ [itNew] ∧
      itNew.amount = jsMul itNew.quantity itNew.unitPrice ∧
      (lookupKey (parseAttrsC astr) "quantity" = none → itNew.quantity = Value.num 1) ∧
      (lookupKey (parseAttrsC astr) "unit_price" = none → itNew.unitPrice = Value.num 0) := by
  obtain ⟨ct, hct, hitems⟩ := addStep_ok_shape pid uid cur db s t astr db2 s2 hdesc hok
  obtain ⟨hq, hp, ha⟩ := resolveParent_fields pid db (addDefaults (parseAttrsC astr))
    (mkItemData pid uid cur (addDefaults (parseAttrsC astr)) ct db.nextId) s
  refine ⟨_, hitems, ?_, ?_, ?_⟩
  · rw [hq, hp, ha]
    show jsGet (addDefaults (parseAttrsC astr)) "amount"
      = jsMul (jsGet (addDefaults (parseAttrsC astr)) "quantity")
          (jsGet (addDefaults (parseAttrsC astr)) "unit_price")
    exact addDefaults_amount_recomputed _ (by simp [jsGet, hamt, Value.truthy])
  · intro hqn
    rw [hq]
    show jsGet (addDefaults (parseAttrsC astr)) "quantity" = Value.num 1
    rw [addDefaults_quantity]
    simp [jsGet, hqn, jsOr, Value.truthy]
  · intro hpn
    rw [hp]
    show jsGet (addDefaults (parseAttrsC astr)) "unit_price" = Value.num 0
    exact addDefaults_unitPrice_absent _ hpn

/-- Witness attribute string for C4: an add with description only. -/
def addAttrsC4 : List Char := "description=\"x\"".data

/-- The row the C4 witness add produces (the amount field is the literal JS
    product 1 * 0 the engine computes). -/
def addWitnessItem : Item :=
  ⟨1, 1, Value.str "x", Value.str "x", Value.num 1, Value.num 0, Value.str "unit",
    Value.str "other", Value.num (1 * 0), Value.str "USD", Value.str "u", Value.bool false,
    Value.str "active", none, DataVal.aiGenerated, []⟩

/-- Witness for C4: a concrete add with description only. -/
theorem addStep_amount_product_witness :
    addStep 1 "u" "USD" ⟨[], 1⟩ ⟨0, 0, 0, []⟩ [] addAttrsC4
      = .ok (⟨[addWitnessItem], 2⟩, ⟨1, 0, 0, []⟩) ∧
    ∃ itNew : Item, (⟨[addWitnessItem], 2⟩ : DB).items = (⟨[], 1⟩ : DB).items ++ [itNew] ∧
      itNew.amount = jsMul itNew.quantity itNew.unitPrice ∧
      (lookupKey (parseAttrsC addAttrsC4) "quantity" = none → itNew.quantity = Value.num 1) ∧
      (lookupKey (parseAttrsC addAttrsC4) "unit_price" = none → itNew.unitPrice = Value.num 0) :=
  ⟨rfl, addStep_amount_product 1 "u" "USD" ⟨[], 1⟩ ⟨0, 0, 0, []⟩ [] addAttrsC4
    (⟨[addWitnessItem], 2⟩) ⟨1, 0, 0, []⟩ (by decide) (by decide) rfl⟩

/-- Claim C9: in the add path a zero attribute is indistinguishable from an
    absent one — an explicit quantity=0 is persisted as the default 1, and an
    explicit amount=0 is discarded and recomputed as the JS product of the
    persisted quantity and unit price. -/
theorem addStep_zero_like_absent (pid : Nat) (uid cur : String) (db : DB) (s : Summary)
    (t astr : List Char) (db2 : DB) (s2 : Summary)
    (hdesc : (jsGet (parseAttrsC astr) "description").truthy = true)
    (hok : addStep pid uid cur db s t astr = .ok (db2, s2)) :
    ∃ itNew : Item, db2.items = db.items ++ [itNew] ∧
      (lookupKey (parseAttrsC astr) "quantity" = some (Value.num 0) →
        itNew.quantity = Value.num 1) ∧
      (lookupKey (parseAttrsC astr) "amount" = some (Value.num 0) →
        itNew.amount = jsMul itNew.quantity itNew.unitPrice) := by
  obtain ⟨ct, hct, hitems⟩ := addStep_ok_shape pid uid cur db s t astr db2 s2 hdesc hok
  obtain ⟨hq, hp, ha⟩ := resolveParent_fields pid db (addDefaults (parseAttrsC astr))
    (mkItemData pid uid cur (addDefaults (parseAttrsC astr)) ct db.nextId) s
  refine ⟨_, hitems, ?_, ?_⟩
  · intro hq0
    rw [hq]
    show jsGet (addDefaults (parseAttrsC astr)) "quantity" = Value.num 1
    rw [addDefaults_quantity]
    simp [jsGet, hq0, jsOr, Value.truthy]
  · intro ha0
    rw [hq, hp, ha]
    show jsGet (addDefaults (parseAttrsC astr)) "amount"
      = jsMul (jsGet (addDefaults (parseAttrsC astr)) "quantity")
          (jsGet (addDefaults (parseAttrsC astr)) "unit_price")
    exact addDefaults_amount_recomputed _ (by simp [jsGet, ha0, Value.truthy])

/-- Witness attribute string for C9: explicit quantity=0 and amount=0. -/
def addAttrsC9 : List Char := "description=\"x\", quantity=0, amount=0".data

/-- Witness for C9: quantity=0 is persisted as 1 and amount=0 is recomputed. -/
theorem addStep_zero_like_absent_witness :
    lookupKey (parseAttrsC addAttrsC9) "quantity" = some (Value.num 0) ∧
    lookupKey (parseAttrsC addAttrsC9) "amount" = some (Value.num 0) ∧
    addStep 1 "u" "USD" ⟨[], 1⟩ ⟨0, 0, 0, []⟩ [] addAttrsC9
      = .ok (⟨[addWitnessItem], 2⟩, ⟨1, 0, 0, []⟩) ∧
    ∃ itNew : Item, (⟨[addWitnessItem], 2⟩ : DB).items = (⟨[], 1⟩ : DB).items ++ [itNew] ∧
      (lookupKey (parseAttrsC addAttrsC9) "quantity" = some (Value.num 0) →
        itNew.quantity = Value.num 1) ∧
      (lookupKey (parseAttrsC addAttrsC9) "amount" = some (Value.num 0) →
        itNew.amount = jsMul itNew.quantity itNew.unitPrice) :=
  ⟨by decide, by decide, rfl,
    addStep_zero_like_absent 1 "u" "USD" ⟨[], 1⟩ ⟨0, 0, 0, []⟩ [] addAttrsC9
      (⟨[addWitnessItem], 2⟩) ⟨1, 0, 0, []⟩ (by decide) rfl⟩

/- ------------------------------------------------------------------ -/
/- Claim C3 (update modifies only instruction attributes).             -/
/- ------------------------------------------------------------------ -/

/-- Claim C3, counterexample: the instruction "+ ID:7, description=..."
    carries only a description attribute, yet the persisted item's cost_type
    is re-inferred from the new description ("extra work" classifies as
    labor) and its title is overwritten with the description — fields that
    were not present in the instruction change. -/
theorem update_changes_fields_not_in_instruction :
    (parseInstructionAttributes "description=\"extra work\"").map Prod.fst
      = ["description"] ∧
    applyLineItemChanges 1 "u" ["+ ID:7, description=\"extra work\""] "USD"
        ⟨[⟨7, 1, Value.str "old", Value.str "old desc", Value.num 2, Value.num 10,
            Value.str "unit", Value.str "material", Value.num 20, Value.str "USD",
            Value.str "u", Value.bool false, Value.str "active", none,
            DataVal.aiGenerated, []⟩], 8⟩
      = Except.ok (⟨[⟨7, 1, Value.str "extra work", Value.str "extra work", Value.num 2,
            Value.num 10, Value.str "unit", Value.str "labor", Value.num 20,
            Value.str "USD", Value.str "u", Value.bool false, Value.str "active", none,
            DataVal.aiGenerated, []⟩], 8⟩,
          ⟨0, 1, 0, []⟩) ∧
    Value.str "labor" ≠ Value.str "material" ∧
    Value.str "extra work" ≠ Value.str "old" := by
  exact ⟨rfl, rfl, by decide, by decide⟩

set_option maxHeartbeats 1600000 in
theorem applyUpdateEntry_frame (it : Item) (k : String) (v : Value) :
    (k ≠ "description" → (applyUpdateEntry it k v).description = it.description) ∧
    (k ≠ "title" → (applyUpdateEntry it k v).title = it.title) ∧
    (k ≠ "quantity" → (applyUpdateEntry it k v).quantity = it.quantity) ∧
    (k ≠ "unit_price" → (applyUpdateEntry it k v).unitPrice = it.unitPrice) ∧
    (k ≠ "amount" → (applyUpdateEntry it k v).amount = it.amount) ∧
    (k ≠ "currency" → (applyUpdateEntry it k v).currency = it.currency) ∧
    (k ≠ "unit_type" → (applyUpdateEntry it k v).unitType = it.unitType) ∧
    (k ≠ "cost_type" → (applyUpdateEntry it k v).costType = it.costType) ∧
    (k ≠ "is_sub_item" → (applyUpdateEntry it k v).isSubItem = it.isSubItem) ∧
    (k ≠ "status" → (applyUpdateEntry it k v).status = it.status) ∧
    (k ≠ "created_by" → (applyUpdateEntry it k v).createdBy = it.createdBy) ∧
    (k ≠ "parent_item_id" → (applyUpdateEntry it k v).parentItemId = it.parentItemId) ∧
    (k ≠ "data" → (applyUpdateEntry it k v).dataField = it.dataField) := by
  refine ⟨?_, ?_, ?_, ?_, ?_, ?_, ?_, ?_, ?_, ?_, ?_, ?_, ?_⟩
  all_goals
    intro h
    unfold applyUpdateEntry
    rw [if_neg h]
    simp only [apply_ite Item.title, apply_ite Item.description, apply_ite Item.quantity,
      apply_ite Item.unitPrice, apply_ite Item.amount, apply_ite Item.currency,
      apply_ite Item.unitType, apply_ite Item.costType, apply_ite Item.isSubItem,
      apply_ite Item.status, apply_ite Item.createdBy, apply_ite Item.parentItemId,
      apply_ite Item.dataField, ite_self]

theorem applyUpdateData_keepsField {α : Type} (f : Item → α) (kn : String)
    (hentry : ∀ (it : Item) (k : String) (v : Value),
      k ≠ kn → f (applyUpdateEntry it k v) = f it) :
    ∀ (ud : List (String × Value)) (it : Item), lookupKey ud kn = none →
      f (applyUpdateData it ud) = f it := by
  intro ud
  induction ud with
  | nil => intro it _; rfl
  | cons kv rest ih =>
    obtain ⟨k, v⟩ := kv
    intro it h
    by_cases he : k = kn
    · simp [lookupKey, he] at h
    · simp only [lookupKey, if_neg he] at h
      have hfold : applyUpdateData it ((k, v) :: rest)
          = applyUpdateData (applyUpdateEntry it k v) rest := rfl
      rw [hfold, ih _ h, hentry it k v he]

theorem lookupKey_setKey_isSome2 {α : Type} (l : List (String × α)) (k k0 : String)
    (v : α) (h : lookupKey (setKey l k0 v) k ≠ none) :
    k = k0 ∨ lookupKey l k ≠ none := by
  by_cases he : k = k0
  · left
    exact he
  · right
    rwa [lookupKey_setKey_ne _ _ _ _ he] at h

theorem mem_keys_lookup {α : Type} (l : List (String × α)) (k : String)
    (h : k ∈ l.map Prod.fst) : lookupKey l k ≠ none := by
  induction l with
  | nil => simp at h
  | cons kv rest ih =>
    obtain ⟨k2, v2⟩ := kv
    simp only [List.map_cons, List.mem_cons] at h
    by_cases he : k2 = k
    · simp [lookupKey, he]
    · rcases h with h | h
      · exact absurd h.symm he
      · simp only [lookupKey, if_neg he]
        exact ih h

theorem keys_foldl_rename (l : List (String × Value)) :
    ∀ (acc : List (String × Value)) (k : String),
      lookupKey (l.foldl (fun ud kv => setKey ud (renameKey kv.1) kv.2) acc) k ≠ none →
      lookupKey acc k ≠ none ∨ ∃ k0, renameKey k0 = k ∧ k0 ∈ l.map Prod.fst := by
  induction l with
  | nil =>
    intro acc k h
    left
    exact h
  | cons kv rest ih =>
    intro acc k h
    rw [List.foldl_cons] at h
    rcases ih (setKey acc (renameKey kv.1) kv.2) k h with h1 | ⟨k0, hk0, hm⟩
    · rcases lookupKey_setKey_isSome2 _ _ _ _ h1 with he | h2
      · right
        exact ⟨kv.1, he.symm, by simp⟩
      · left
        exact h2
    · right
      exact ⟨k0, hk0, by simp [hm]⟩

theorem keys_deriveAmount (attrs : List (String × Value)) (k : String)
    (h : lookupKey (deriveAmount attrs) k ≠ none) :
    lookupKey attrs k ≠ none ∨ k = "amount" := by
  unfold deriveAmount at h
  split at h
  · rcases lookupKey_setKey_isSome2 _ _ _ _ h with he | h2
    · right
      exact he
    · left
      exact h2
  · left
    exact h

theorem keys_buildUpdateData_deriveAmount (attrs : List (String × Value)) (k : String)
    (hk : lookupKey (buildUpdateData (deriveAmount attrs)) k ≠ none) :
    (∃ k0, renameKey k0 = k ∧ lookupKey attrs k0 ≠ none) ∨ k = "amount" := by
  unfold buildUpdateData at hk
  rcases keys_foldl_rename (deriveAmount attrs) [] k hk with h1 | ⟨k0, hk0, hm⟩
  · exact absurd rfl h1
  · have h2 := mem_keys_lookup _ _ hm
    rcases keys_deriveAmount attrs k0 h2 with h3 | h3
    · left
      exact ⟨k0, hk0, h3⟩
    · right
      rw [h3] at hk0
      rw [← hk0]
      rfl

theorem keys_mkUpdateData (attrs ud : List (String × Value))
    (h : mkUpdateData attrs = .ok ud) (k : String) (hk : lookupKey ud k ≠ none) :
    (∃ k0, renameKey k0 = k ∧ lookupKey attrs k0 ≠ none)
      ∨ k = "amount" ∨ k = "cost_type" ∨ k = "title" := by
  simp only [mkUpdateData] at h
  rcases hco : costTypeForUpdate (deriveAmount attrs) with e | oct
  · rw [hco] at h
    exact absurd h (by simp)
  · rw [hco] at h
    dsimp only at h
    cases oct with
    | none =>
      injection h with hud
      subst hud
      split at hk
      · rcases lookupKey_setKey_isSome2 _ _ _ _ hk with he | h2
        · exact Or.inr (Or.inr (Or.inr he))
        · rcases keys_buildUpdateData_deriveAmount attrs k h2 with h3 | h3
          · exact Or.inl h3
          · exact Or.inr (Or.inl h3)
      · rcases keys_buildUpdateData_deriveAmount attrs k hk with h3 | h3
        · exact Or.inl h3
        · exact Or.inr (Or.inl h3)
    | some ct =>
      injection h with hud
      subst hud
      split at hk
      · rcases lookupKey_setKey_isSome2 _ _ _ _ hk with he | h2
        · exact Or.inr (Or.inr (Or.inr he))
        · rcases lookupKey_setKey_isSome2 _ _ _ _ h2 with he | h3
          · exact Or.inr (Or.inr (Or.inl he))
          · rcases keys_buildUpdateData_deriveAmount attrs k h3 with h4 | h4
            · exact Or.inl h4
            · exact Or.inr (Or.inl h4)
      · rcases lookupKey_setKey_isSome2 _ _ _ _ hk with he | h3
        · exact Or.inr (Or.inr (Or.inl he))
        · rcases keys_buildUpdateData_deriveAmount attrs k h3 with h4 | h4
          · exact Or.inl h4
          · exact Or.inr (Or.inl h4)

/-- Claim C3, amended: an update modifies only the columns named by its
    updateData — any column whose name is not an updateData key keeps its
    value — and every updateData key comes from an attribute present in the
    instruction (with parent_id stored as parent_item_id) or is one of the
    three derived fields amount, cost_type, title; the example
    "+ ID:42, cost_type=equipment" changes nothing but costType and
    increments itemsUpdated. -/
theorem update_frame_and_example :
    (∀ (it : Item) (ud : List (String × Value)),
      (lookupKey ud "description" = none →
        (applyUpdateData it ud).description = it.description) ∧
      (lookupKey ud "title" = none → (applyUpdateData it ud).title = it.title) ∧
      (lookupKey ud "quantity" = none → (applyUpdateData it ud).quantity = it.quantity) ∧
      (lookupKey ud "unit_price" = none →
        (applyUpdateData it ud).unitPrice = it.unitPrice) ∧
      (lookupKey ud "amount" = none → (applyUpdateData it ud).amount = it.amount) ∧
      (lookupKey ud "currency" = none → (applyUpdateData it ud).currency = it.currency) ∧
      (lookupKey ud "unit_type" = none → (applyUpdateData it ud).unitType = it.unitType) ∧
      (lookupKey ud "cost_type" = none → (applyUpdateData it ud).costType = it.costType) ∧
      (lookupKey ud "is_sub_item" = none →
        (applyUpdateData it ud).isSubItem = it.isSubItem) ∧
      (lookupKey ud "status" = none → (applyUpdateData it ud).status = it.status) ∧
      (lookupKey ud "created_by" = none →
        (applyUpdateData it ud).createdBy = it.createdBy) ∧
      (lookupKey ud "parent_item_id" = none →
        (applyUpdateData it ud).parentItemId = it.parentItemId) ∧
      (lookupKey ud "data" = none → (applyUpdateData it ud).dataField = it.dataField)) ∧
    (∀ (attrs ud : List (String × Value)), mkUpdateData attrs = .ok ud →
      ∀ k, lookupKey ud k ≠ none →
        (∃ k0, renameKey k0 = k ∧ lookupKey attrs k0 ≠ none)
          ∨ k = "amount" ∨ k = "cost_type" ∨ k = "title") ∧
    (∀ (pid : Nat) (uid cur : String) (db : DB) (s : Summary),
      applyInstruction pid uid cur (db, s) "+ ID:42, cost_type=equipment" =
        .ok ({ db with items := db.items.map fun it2 =>
            if it2.id == 42 && it2.projectId == pid then
              { it2 with costType := Value.str "equipment" }
            else it2 },
          { s with itemsUpdated := s.itemsUpdated + 1 })) := by
  refine ⟨?_, fun attrs ud h k hk => keys_mkUpdateData attrs ud h k hk, ?_⟩
  · intro it ud
    exact ⟨fun h => applyUpdateData_keepsField Item.description "description"
        (fun it2 k v hk => (applyUpdateEntry_frame it2 k v).1 hk) ud it h,
      fun h => applyUpdateData_keepsField Item.title "title"
        (fun it2 k v hk => (applyUpdateEntry_frame it2 k v).2.1 hk) ud it h,
      fun h => applyUpdateData_keepsField Item.quantity "quantity"
        (fun it2 k v hk => (applyUpdateEntry_frame it2 k v).2.2.1 hk) ud it h,
      fun h => applyUpdateData_keepsField Item.unitPrice "unit_price"
        (fun it2 k v hk => (applyUpdateEntry_frame it2 k v).2.2.2.1 hk) ud it h,
      fun h => applyUpdateData_keepsField Item.amount "amount"
        (fun it2 k v hk => (applyUpdateEntry_frame it2 k v).2.2.2.2.1 hk) ud it h,
      fun h => applyUpdateData_keepsField Item.currency "currency"
        (fun it2 k v hk => (applyUpdateEntry_frame it2 k v).2.2.2.2.2.1 hk) ud it h,
      fun h => applyUpdateData_keepsField Item.unitType "unit_type"
        (fun it2 k v hk => (applyUpdateEntry_frame it2 k v).2.2.2.2.2.2.1 hk) ud it h,
      fun h => applyUpdateData_keepsField Item.costType "cost_type"
        (fun it2 k v hk => (applyUpdateEntry_frame it2 k v).2.2.2.2.2.2.2.1 hk) ud it h,
      fun h => applyUpdateData_keepsField Item.isSubItem "is_sub_item"
        (fun it2 k v hk => (applyUpdateEntry_frame it2 k v).2.2.2.2.2.2.2.2.1 hk) ud it h,
      fun h => applyUpdateData_keepsField Item.status "status"
        (fun it2 k v hk => (applyUpdateEntry_frame it2 k v).2.2.2.2.2.2.2.2.2.1 hk) ud it h,
      fun h => applyUpdateData_keepsField Item.createdBy "created_by"
        (fun it2 k v hk => (applyUpdateEntry_frame it2 k v).2.2.2.2.2.2.2.2.2.2.1 hk) ud it h,
      fun h => applyUpdateData_keepsField Item.parentItemId "parent_item_id"
        (fun it2 k v hk => (applyUpdateEntry_frame it2 k v).2.2.2.2.2.2.2.2.2.2.2.1 hk) ud it h,
      fun h => applyUpdateData_keepsField Item.dataField "data"
        (fun it2 k v hk => (applyUpdateEntry_frame it2 k v).2.2.2.2.2.2.2.2.2.2.2.2 hk) ud it h⟩
  · intro pid uid cur db s
    rfl

/-- The existing row the C3 witness updates. -/
def c3Item : Item :=
  ⟨42, 7, Value.str "old", Value.str "old desc", Value.num 2, Value.num 10,
    Value.str "unit", Value.str "material", Value.num 20, Value.str "USD",
    Value.str "u", Value.bool false, Value.str "active", none, DataVal.aiGenerated, []⟩

/-- Witness for the amended C3 theorem: the example instruction applied to a
    concrete one-row project changes only costType, and the frame part keeps
    quantity on a concrete updateData without a quantity key. -/
theorem update_frame_and_example_witness :
    applyInstruction 7 "u" "USD" (⟨[c3Item], 43⟩, ⟨0, 0, 0, []⟩)
        "+ ID:42, cost_type=equipment"
      = .ok (⟨[{ c3Item with costType := Value.str "equipment" }], 43⟩, ⟨0, 1, 0, []⟩) ∧
    (applyUpdateData c3Item [("cost_type", Value.str "equipment")]).quantity
      = c3Item.quantity := by
  constructor
  · have h := update_frame_and_example.2.2 7 "u" "USD" ⟨[c3Item], 43⟩ ⟨0, 0, 0, []⟩
    rw [h]
    rfl
  · exact ((update_frame_and_example.1 c3Item
      [("cost_type", Value.str "equipment")]).2.2.1) (by decide)
